import Mathlib

/-
Verification of the label/value field-evaluation resolution algorithm of
django_bread (src/bread/bread.py, class LabelValueReadView).

The embedding models the dynamic Python values that the resolver inspects:
strings, callables, and other values. Callables are represented by an index
into a call table (the `World`), so that invoking a member with no arguments
(mode 2) and invoking an evaluator with the context dict (mode 4) are both
`World.call` applications, and so that an invocation can raise an exception
(`Except.error`). The record `self.object` is a table of named attributes
plus its field metadata (verbose names).
-/

/-- Exceptions that resolution can surface: the configuration error raised by
label derivation when no field metadata exists, or an arbitrary exception
raised by an invoked callable. -/
inductive PyErr where
  | configurationError (name : String)
  | evaluationError (msg : String)
deriving DecidableEq, Repr

/-- Python values as inspected by the resolver: `isinstance(evaluator, str)`
distinguishes `vStr`; `callable(x)` distinguishes `vCallable`; everything
else falls through to `str(evaluator)`. A callable is an index into the
world's call table. `vDict` models the context-data dict passed to mode-4
callables. -/
inductive PyVal where
  | vInt (n : Int)
  | vStr (s : String)
  | vNone
  | vCallable (idx : Nat)
  | vDict (entries : List (String × PyVal))

/-- The context-data dict built by `get_context_data`. -/
abbrev Ctx := List (String × PyVal)

/-- The call table: invoking callable number `i` on an argument list either
returns a value or raises. Members are called with `[]` (mode 2), evaluator
callables with the context dict as single argument (mode 4). -/
structure World where
  call : Nat → List PyVal → Except PyErr PyVal

/-- The record being displayed, `self.object`: its named members (plain
attributes or callable members) and its field metadata mapping a field name
to its human-readable verbose name. -/
structure PyObj where
  attrs : List (String × PyVal)
  meta : List (String × String)

/-- Lookup by key in an association list, first match wins. -/
def slookup (key : String) : List (String × α) → Option α
  | [] => none
  | (k, v) :: rest => if k = key then some v else slookup key rest

/-- The check `isinstance(x, six_string_types)`. -/
def isString : PyVal → Bool
  | .vStr _ => true
  | _ => false

/-- The check `callable(x)`. -/
def isCallable : PyVal → Bool
  | .vCallable _ => true
  | _ => false

/-- Python `str(x)` for the values of the model, used by mode 5. Mode 5 only
ever applies to non-string non-callable values, so the rendering of the
callable and dict cases is never reached from the resolver with a sensible
configuration; they are given nominal renderings. -/
def pyStr : PyVal → String
  | .vInt n => toString n
  | .vStr s => s
  | .vNone => "None"
  | .vCallable i => "<callable " ++ toString i ++ ">"
  | .vDict _ => "<dict>"

/-- Modelled from the spec: `get_verbose_name` is defined in `bread/utils.py`,
which is not part of the provided sources (only its caller at bread.py:279
is). Per the spec, label derivation looks up the human-readable name in the
Record's field metadata keyed by the attribute name and fails with
`ConfigurationError` if no such metadata entry exists. -/
def get_verbose_name (obj : PyObj) (field_name : String) : Except PyErr String :=
  match slookup field_name obj.meta with
  | some vn => Except.ok vn
  | none => Except.error (PyErr.configurationError field_name)

/-- The expression `attr() if callable(attr) else attr` at bread.py:276:
a callable member is invoked with no arguments (mode 2), a non-callable
member is the value itself (mode 1). -/
def memberValue (w : World) (attr : PyVal) : Except PyErr PyVal :=
  match attr with
  | .vCallable i => w.call i []
  | _ => Except.ok attr

/-- Embedding of `LabelValueReadView.get_field_label_value`
(bread.py:265-290), with Python exceptions made explicit in `Except`:

  - string evaluator naming a member: value is the member (mode 1) or the
    result of calling it with no arguments (mode 2); if the label is `None`
    it is then derived via `get_verbose_name`;
  - string evaluator naming no member: the string itself, label unchanged
    (mode 3);
  - non-string callable evaluator: the result of calling it with the
    context dict, label unchanged (mode 4);
  - anything else: `str(evaluator)`, label unchanged (mode 5). -/
def get_field_label_value (w : World) (obj : PyObj) (label : Option String)
    (evaluator : PyVal) (context_data : Ctx) :
    Except PyErr (Option String × PyVal) :=
  match evaluator with
  | .vStr s =>
    match slookup s obj.attrs with
    | some attr =>
      match memberValue w attr with
      | Except.error e => Except.error e
      | Except.ok value =>
        match label with
        | none =>
          match get_verbose_name obj s with
          | Except.error e => Except.error e
          | Except.ok vn => Except.ok (some vn, value)
        | some l => Except.ok (some l, value)
    | none => Except.ok (label, .vStr s)
  | .vCallable i =>
    match w.call i [.vDict context_data] with
    | Except.error e => Except.error e
    | Except.ok value => Except.ok (label, value)
  | _ => Except.ok (label, .vStr (pyStr evaluator))

/-- Embedding of the list comprehension at bread.py:260-261 that builds
`context_data['read_fields']`: each `(label, evaluator)` pair of `fields` is
resolved in declaration order; the first exception aborts the whole
comprehension. -/
def read_fields (w : World) (obj : PyObj) (fields : List (Option String × PyVal))
    (context_data : Ctx) : Except PyErr (List (Option String × PyVal)) :=
  match fields with
  | [] => Except.ok []
  | (l, e) :: rest =>
    match get_field_label_value w obj l e context_data with
    | Except.error err => Except.error err
    | Except.ok r =>
      match read_fields w obj rest context_data with
      | Except.error err => Except.error err
      | Except.ok rs => Except.ok (r :: rs)

/-- The mode (1-5 of the class docstring) that the branch structure of
`get_field_label_value` selects for a given evaluator against a given
record. -/
def resolutionMode (obj : PyObj) (evaluator : PyVal) : Nat :=
  match evaluator with
  | .vStr s =>
    match slookup s obj.attrs with
    | some (.vCallable _) => 2
    | some _ => 1
    | none => 3
  | .vCallable _ => 4
  | _ => 5

/-- Whether mode `k` of the class docstring applies to `(obj, evaluator)`,
stated directly from each mode's side condition: mode 1 = string naming a
non-callable member, mode 2 = string naming a callable member, mode 3 =
string naming no member, mode 4 = non-string callable, mode 5 = non-string
non-callable. -/
def modeApplies (obj : PyObj) (evaluator : PyVal) (k : Nat) : Bool :=
  match k with
  | 1 =>
    match evaluator with
    | .vStr s =>
      match slookup s obj.attrs with
      | some attr => !(isCallable attr)
      | none => false
    | _ => false
  | 2 =>
    match evaluator with
    | .vStr s =>
      match slookup s obj.attrs with
      | some attr => isCallable attr
      | none => false
    | _ => false
  | 3 =>
    match evaluator with
    | .vStr s => (slookup s obj.attrs).isNone
    | _ => false
  | 4 => !(isString evaluator) && isCallable evaluator
  | 5 => !(isString evaluator) && !(isCallable evaluator)
  | _ => false

/-- Whether a resolution result is a normal return rather than a raised
exception. -/
def exceptOk : Except PyErr α → Bool
  | Except.ok _ => true
  | Except.error _ => false

/-- Concrete call table for witnesses: callable 0 is a zero-argument member
returning a string, callable 1 is a context-aware evaluator, callable 2
raises on any invocation. -/
def testWorld : World where
  call := fun i _args =>
    match i with
    | 0 => Except.ok (PyVal.vStr "Ada Lovelace")
    | 1 => Except.ok (PyVal.vStr "computed")
    | 2 => Except.error (PyErr.evaluationError "boom")
    | _ => Except.ok PyVal.vNone

/-- Concrete record for witnesses: a plain attribute `id`, a callable member
`full_name`, a callable member `boom` that raises, and field metadata for
`id` and `full_name` only. -/
def testObj : PyObj where
  attrs := [("id", PyVal.vInt 7), ("full_name", PyVal.vCallable 0),
            ("boom", PyVal.vCallable 2)]
  meta := [("id", "ID"), ("full_name", "Full Name")]

/-- Concrete record whose `nickname` attribute has no field metadata entry,
exercising the ConfigurationError branch of label derivation. -/
def testObjNoMeta : PyObj where
  attrs := [("nickname", PyVal.vStr "Ada")]
  meta := []

/-- A FieldSpec list exercising modes 1, 4 and 5, used by witnesses. -/
def testFields : List (Option String × PyVal) :=
  [(none, PyVal.vStr "id"), (some "Stuff", PyVal.vCallable 1),
   (some "Answer", PyVal.vInt 42)]

/-- C1: resolving a FieldSpec list of length N against a Record and a render
context produces, on normal return, exactly N resolved pairs, and the i-th
output pair is the resolution of the i-th input FieldSpec, so declaration
order is preserved. -/
theorem read_fields_length_and_order (w : World) (obj : PyObj)
    (fields : List (Option String × PyVal)) (ctx : Ctx)
    (ys : List (Option String × PyVal))
    (h : read_fields w obj fields ctx = Except.ok ys) :
    ys.length = fields.length ∧
    ∀ i (hi : i < fields.length) (hy : i < ys.length),
      get_field_label_value w obj (fields.get ⟨i, hi⟩).1 (fields.get ⟨i, hi⟩).2 ctx
        = Except.ok (ys.get ⟨i, hy⟩) := by
  induction fields generalizing ys with
  | nil =>
    simp only [read_fields] at h
    injection h with h
    subst h
    exact ⟨rfl, fun i hi => absurd hi (Nat.not_lt_zero i)⟩
  | cons p rest ih =>
    obtain ⟨l, e⟩ := p
    simp only [read_fields] at h
    cases hr : get_field_label_value w obj l e ctx with
    | error err => rw [hr] at h; cases h
    | ok r =>
      rw [hr] at h
      cases hrest : read_fields w obj rest ctx with
      | error err => rw [hrest] at h; cases h
      | ok rs =>
        rw [hrest] at h
        injection h with h
        subst h
        obtain ⟨ihlen, ihget⟩ := ih rs hrest
        refine ⟨by simp [ihlen], ?_⟩
        intro i hi hy
        cases i with
        | zero => simpa using hr
        | succ n =>
          have hn : n < rest.length := Nat.lt_of_succ_lt_succ hi
          have hyn : n < rs.length := Nat.lt_of_succ_lt_succ hy
          simpa using ihget n hn hyn

theorem read_fields_length_and_order_witness :
    read_fields testWorld testObj testFields [] =
      Except.ok [(some "ID", PyVal.vInt 7), (some "Stuff", PyVal.vStr "computed"),
                 (some "Answer", PyVal.vStr "42")] ∧
    ([(some "ID", PyVal.vInt 7), (some "Stuff", PyVal.vStr "computed"),
      (some "Answer", PyVal.vStr "42")] :
        List (Option String × PyVal)).length = testFields.length :=
  ⟨rfl, (read_fields_length_and_order testWorld testObj testFields [] _ rfl).1⟩

/-- C4 counterexample: for the FieldSpec `(None, 'missing_field')` where the
Record has no member of that name and no metadata entry, resolution does not
raise ConfigurationError; it returns `(None, 'missing_field')` normally. -/
theorem missing_member_counterexample :
    get_field_label_value testWorld testObj none (PyVal.vStr "missing_field") [] =
      Except.ok (none, PyVal.vStr "missing_field") ∧
    exceptOk (get_field_label_value testWorld testObj none
      (PyVal.vStr "missing_field") []) = true :=
  ⟨rfl, rfl⟩

/-- C4 amended: for the FieldSpec `(None, 'missing_field')` where the Record
has no member of that name, resolution does not raise; the string falls to
mode 3 and the output is `(None, 'missing_field')`, the None label passed
through. -/
theorem missing_member_passthrough (w : World) (obj : PyObj) (ctx : Ctx)
    (s : String) (h : slookup s obj.attrs = none) :
    get_field_label_value w obj none (PyVal.vStr s) ctx =
      Except.ok (none, PyVal.vStr s) := by
  simp [get_field_label_value, h]

theorem missing_member_passthrough_witness :
    get_field_label_value testWorld testObj none (PyVal.vStr "missing_field") [] =
      Except.ok (none, PyVal.vStr "missing_field") :=
  missing_member_passthrough testWorld testObj [] "missing_field" rfl

/-- C6: a FieldSpec with an explicit label and a string evaluator naming no
member of the Record resolves to `(label, evaluator)`, the evaluator string
passed through unchanged as the value (mode 3). -/
theorem literal_passthrough (w : World) (obj : PyObj) (ctx : Ctx)
    (l s : String) (h : slookup s obj.attrs = none) :
    get_field_label_value w obj (some l) (PyVal.vStr s) ctx =
      Except.ok (some l, PyVal.vStr s) := by
  simp [get_field_label_value, h]

theorem literal_passthrough_witness :
    get_field_label_value testWorld testObj (some "Foo") (PyVal.vStr "bar") [] =
      Except.ok (some "Foo", PyVal.vStr "bar") :=
  literal_passthrough testWorld testObj [] "Foo" "bar" rfl

/-- C7: a non-string callable evaluator resolves by invoking the callable
with the context-data dict as its single argument; the given label is used
as the output label, and an exception from the call propagates. -/
theorem context_callable_mode (w : World) (obj : PyObj) (ctx : Ctx)
    (label : Option String) (i : Nat) :
    get_field_label_value w obj label (PyVal.vCallable i) ctx =
      Except.map (fun v => (label, v)) (w.call i [PyVal.vDict ctx]) := by
  simp only [get_field_label_value]
  cases w.call i [PyVal.vDict ctx] <;> simp [Except.map]

/-- C2: for every (label, evaluator) pair exactly one of the five resolution
modes applies; the mode the branch structure of the code selects is the one
that applies; and a string evaluator is never resolved by mode 4 or 5. -/
theorem mode_selection_exclusive_exhaustive (obj : PyObj) (e : PyVal) :
    ((modeApplies obj e 1).toNat + (modeApplies obj e 2).toNat +
     (modeApplies obj e 3).toNat + (modeApplies obj e 4).toNat +
     (modeApplies obj e 5).toNat = 1) ∧
    modeApplies obj e (resolutionMode obj e) = true ∧
    (isString e = true →
      modeApplies obj e 4 = false ∧ modeApplies obj e 5 = false) := by
  cases e with
  | vStr s =>
    cases h : slookup s obj.attrs with
    | none => simp [modeApplies, resolutionMode, isString, isCallable, h]
    | some attr =>
      cases attr <;>
        simp [modeApplies, resolutionMode, isString, isCallable, h]
  | _ => simp [modeApplies, resolutionMode, isString, isCallable]

theorem mode_selection_witness :
    modeApplies testObj (PyVal.vStr "id") 4 = false ∧
    modeApplies testObj (PyVal.vStr "id") 5 = false :=
  (mode_selection_exclusive_exhaustive testObj (PyVal.vStr "id")).2.2 rfl

/-- C3: when a string evaluator names a member of the Record, the choice
between mode 1 and mode 2 depends only on the member's callability: a
non-callable member is the value itself, a callable member is invoked with
no arguments, whatever the name is. -/
theorem member_dispatch_by_callability (w : World) (obj : PyObj) (ctx : Ctx)
    (l s : String) (attr : PyVal)
    (h : slookup s obj.attrs = some attr) :
    (isCallable attr = false →
      get_field_label_value w obj (some l) (PyVal.vStr s) ctx =
        Except.ok (some l, attr)) ∧
    (∀ i, attr = PyVal.vCallable i →
      get_field_label_value w obj (some l) (PyVal.vStr s) ctx =
        Except.map (fun v => (some l, v)) (w.call i [])) := by
  constructor
  · intro hnc
    cases attr <;> simp_all [get_field_label_value, memberValue, isCallable, h]
  · rintro i rfl
    simp only [get_field_label_value, h, memberValue]
    cases w.call i [] <;> simp [Except.map]

theorem member_dispatch_witness :
    get_field_label_value testWorld testObj (some "The ID") (PyVal.vStr "id") [] =
      Except.ok (some "The ID", PyVal.vInt 7) :=
  (member_dispatch_by_callability testWorld testObj [] "The ID" "id"
    (PyVal.vInt 7) rfl).1 rfl

/-- C5: for a FieldSpec with label None whose string evaluator names a member
of the Record (mode 1 or 2, member value computed normally), the output label
is the metadata verbose name keyed by that attribute name, and resolution
raises ConfigurationError when no such metadata entry exists. -/
theorem none_label_derivation (w : World) (obj : PyObj) (ctx : Ctx)
    (s : String) (attr v : PyVal)
    (h : slookup s obj.attrs = some attr)
    (hv : memberValue w attr = Except.ok v) :
    (∀ vn, slookup s obj.meta = some vn →
      get_field_label_value w obj none (PyVal.vStr s) ctx =
        Except.ok (some vn, v)) ∧
    (slookup s obj.meta = none →
      get_field_label_value w obj none (PyVal.vStr s) ctx =
        Except.error (PyErr.configurationError s)) := by
  constructor
  · intro vn hm
    simp [get_field_label_value, h, hv, get_verbose_name, hm]
  · intro hm
    simp [get_field_label_value, h, hv, get_verbose_name, hm]

theorem none_label_derivation_witness :
    get_field_label_value testWorld testObj none (PyVal.vStr "id") [] =
      Except.ok (some "ID", PyVal.vInt 7) ∧
    get_field_label_value testWorld testObjNoMeta none (PyVal.vStr "nickname") [] =
      Except.error (PyErr.configurationError "nickname") :=
  ⟨(none_label_derivation testWorld testObj [] "id" (PyVal.vInt 7) (PyVal.vInt 7)
      rfl rfl).1 "ID" rfl,
   (none_label_derivation testWorld testObjNoMeta [] "nickname" (PyVal.vStr "Ada")
      (PyVal.vStr "Ada") rfl rfl).2 rfl⟩

/-- C8: an exception raised by an invoked evaluator - a callable member in
mode 2 or a context-aware callable in mode 4 - propagates unmodified to the
caller: the resolution result is exactly that error, with no retry,
suppression or default value. -/
theorem evaluator_exception_propagation (w : World) (obj : PyObj) (ctx : Ctx)
    (label : Option String) (s : String) (i : Nat) (e : PyErr) :
    (slookup s obj.attrs = some (PyVal.vCallable i) →
      w.call i [] = Except.error e →
      get_field_label_value w obj label (PyVal.vStr s) ctx = Except.error e) ∧
    (w.call i [PyVal.vDict ctx] = Except.error e →
      get_field_label_value w obj label (PyVal.vCallable i) ctx =
        Except.error e) := by
  constructor
  · intro h hc
    simp [get_field_label_value, h, memberValue, hc]
  · intro hc
    simp [get_field_label_value, hc]

theorem evaluator_exception_propagation_witness :
    get_field_label_value testWorld testObj (some "Boom") (PyVal.vStr "boom") [] =
      Except.error (PyErr.evaluationError "boom") ∧
    get_field_label_value testWorld testObj (some "Boom") (PyVal.vCallable 2) [] =
      Except.error (PyErr.evaluationError "boom") :=
  ⟨(evaluator_exception_propagation testWorld testObj [] (some "Boom") "boom" 2
      (PyErr.evaluationError "boom")).1 rfl rfl,
   (evaluator_exception_propagation testWorld testObj [] (some "Boom") "boom" 2
      (PyErr.evaluationError "boom")).2 rfl⟩

/-- Resolving a concatenated FieldSpec list first resolves the front part;
when the front part resolves normally, the back part is resolved against the
same record and context and the results are concatenated. -/
theorem read_fields_append (w : World) (obj : PyObj)
    (xs zs : List (Option String × PyVal)) (ctx : Ctx)
    (ys : List (Option String × PyVal))
    (h : read_fields w obj xs ctx = Except.ok ys) :
    read_fields w obj (xs ++ zs) ctx =
      Except.map (fun rs => ys ++ rs) (read_fields w obj zs ctx) := by
  induction xs generalizing ys with
  | nil =>
    simp only [read_fields] at h
    injection h with h
    subst h
    simp only [List.nil_append]
    cases read_fields w obj zs ctx <;> simp [Except.map]
  | cons p rest ih =>
    obtain ⟨l, e⟩ := p
    simp only [read_fields] at h
    simp only [List.cons_append, read_fields]
    cases hr : get_field_label_value w obj l e ctx with
    | error err => rw [hr] at h; cases h
    | ok r =>
      rw [hr] at h
      cases hrest : read_fields w obj rest ctx with
      | error err => rw [hrest] at h; cases h
      | ok rs =>
        rw [hrest] at h
        injection h with h
        subst h
        have hzs := ih rs hrest
        simp only [List.append_eq] at hzs ⊢
        rw [hzs]
        cases read_fields w obj zs ctx <;> simp [Except.map]

/-- C9: resolution is deterministic and idempotent: under the purity of the
embedding (record members and callables are functions, the claim's
side-effect-freedom hypothesis), a second resolution of the same FieldSpec
list against the same record and context returns the very same output, shown
by re-running the list after itself. -/
theorem resolution_idempotent (w : World) (obj : PyObj)
    (fields : List (Option String × PyVal)) (ctx : Ctx)
    (ys : List (Option String × PyVal))
    (h : read_fields w obj fields ctx = Except.ok ys) :
    read_fields w obj fields ctx = Except.ok ys ∧
    read_fields w obj (fields ++ fields) ctx = Except.ok (ys ++ ys) := by
  refine ⟨h, ?_⟩
  rw [read_fields_append w obj fields fields ctx ys h, h]
  rfl

theorem resolution_idempotent_witness :
    read_fields testWorld testObj [(none, PyVal.vStr "id")] [] =
      Except.ok [(some "ID", PyVal.vInt 7)] ∧
    read_fields testWorld testObj
        ([(none, PyVal.vStr "id")] ++ [(none, PyVal.vStr "id")]) [] =
      Except.ok ([(some "ID", PyVal.vInt 7)] ++ [(some "ID", PyVal.vInt 7)]) :=
  resolution_idempotent testWorld testObj [(none, PyVal.vStr "id")] [] _ rfl

/-- C10: an explicitly supplied label (any non-None value, the empty string
included) is returned unchanged in all five modes; a None label is replaced
only in modes 1 and 2 (string evaluator naming a member); and in modes 3 and
5 a None label passes through as None and resolution never raises, no
metadata lookup being reachable there. -/
theorem label_passthrough_invariant (w : World) (obj : PyObj) (ctx : Ctx)
    (label : Option String) (evaluator : PyVal) (l' : Option String) (v : PyVal) :
    (get_field_label_value w obj label evaluator ctx = Except.ok (l', v) →
      (label ≠ none ∨ 3 ≤ resolutionMode obj evaluator) → l' = label) ∧
    ((resolutionMode obj evaluator = 3 ∨ resolutionMode obj evaluator = 5) →
      exceptOk (get_field_label_value w obj label evaluator ctx) = true) := by
  cases evaluator with
  | vStr s =>
    cases h : slookup s obj.attrs with
    | none =>
      refine ⟨?_, ?_⟩
      · intro hok _
        simp only [get_field_label_value, h] at hok
        injection hok with hok
        exact (congrArg Prod.fst hok).symm
      · intro _
        simp [get_field_label_value, exceptOk, h]
    | some attr =>
      refine ⟨?_, ?_⟩
      · intro hok hside
        rcases hside with hlab | hmode
        · obtain ⟨l0, rfl⟩ := Option.ne_none_iff_exists.mp hlab
          simp only [get_field_label_value, h] at hok
          rcases hval : memberValue w attr with e | value <;> rw [hval] at hok
          · cases hok
          · injection hok with hok
            exact (congrArg Prod.fst hok).symm
        · exfalso
          cases attr <;> simp [resolutionMode, h] at hmode
      · intro hmode
        exfalso
        cases attr <;> simp [resolutionMode, h] at hmode
  | vCallable i =>
    refine ⟨?_, ?_⟩
    · intro hok _
      simp only [get_field_label_value] at hok
      rcases hc : w.call i [PyVal.vDict ctx] with e | value <;> rw [hc] at hok
      · cases hok
      · injection hok with hok
        exact (congrArg Prod.fst hok).symm
    · intro hmode
      simp [resolutionMode] at hmode
  | vInt n =>
    refine ⟨?_, ?_⟩
    · intro hok _
      simp only [get_field_label_value] at hok
      injection hok with hok
      exact (congrArg Prod.fst hok).symm
    · intro _
      simp [get_field_label_value, exceptOk]
  | vNone =>
    refine ⟨?_, ?_⟩
    · intro hok _
      simp only [get_field_label_value] at hok
      injection hok with hok
      exact (congrArg Prod.fst hok).symm
    · intro _
      simp [get_field_label_value, exceptOk]
  | vDict d =>
    refine ⟨?_, ?_⟩
    · intro hok _
      simp only [get_field_label_value] at hok
      injection hok with hok
      exact (congrArg Prod.fst hok).symm
    · intro _
      simp [get_field_label_value, exceptOk]

theorem label_passthrough_witness :
    (some "Answer" : Option String) = some "Answer" ∧
    exceptOk (get_field_label_value testWorld testObj (some "Answer")
      (PyVal.vInt 42) []) = true :=
  ⟨(label_passthrough_invariant testWorld testObj [] (some "Answer")
      (PyVal.vInt 42) (some "Answer") (PyVal.vStr "42")).1 rfl
      (Or.inl (fun hc => Option.noConfusion hc)),
   (label_passthrough_invariant testWorld testObj [] (some "Answer")
      (PyVal.vInt 42) (some "Answer") (PyVal.vStr "42")).2 (Or.inr rfl)⟩
